import Mathlib

/-
Verification development for the sqlalchemy_helpers repository.

Shallow embedding of the two source modules:
  * sqlalchemy_helpers/filter.py     (get_filter_arg, get_filtered_query)
  * sqlalchemy_helpers/pagination.py (get_paginated_queryset, get_paginated_data,
                                      get_page_args)

Python runtime values that flow through these functions are modelled by the
inductive type `Value`; Python dictionaries by association lists with
string keys; SQLAlchemy predicate expressions by the AST `Pred`, one
constructor per SQLAlchemy expression method the source invokes; SQLAlchemy
queries by explicit record types carrying their clauses unevaluated.
Fallible code (Python exceptions) is modelled with `Option` / `Except`.
-/

set_option autoImplicit false

namespace SqlalchemyHelpers

/-- Value models the Python runtime values the helpers handle: None, bool,
int, str and list.  (Python bools are an int subtype; `asInt` reflects that.) -/
inductive Value where
  | null
  | bool (b : Bool)
  | int (n : Int)
  | str (s : String)
  | list (vs : List Value)
  deriving Repr

/-- Python truthiness: None, False, 0, the empty string and the empty list
are falsy; everything else is truthy.  This models the `if not data_value`
and `x or default` checks of the source. -/
def Value.truthy : Value → Bool
  | .null => false
  | .bool b => b
  | .int n => n != 0
  | .str s => s != ""
  | .list vs => !vs.isEmpty

/-- The integer a value denotes when used in Python arithmetic/comparisons:
ints are themselves, bools are 0 or 1 (int subtype); other values would
raise a TypeError when compared or multiplied with ints, modelled by `none`. -/
def Value.asInt : Value → Option Int
  | .int n => some n
  | .bool b => some (if b then 1 else 0)
  | _ => none

/-- Python repr of a value, used by str() on list elements.  Covers the
constructors of `Value` in their standard Python textual form. -/
def Value.pyRepr : Value → String
  | .null => "None"
  | .bool true => "True"
  | .bool false => "False"
  | .int n => toString n
  | .str s => "'" ++ s ++ "'"
  | .list vs => "[" ++ String.intercalate ", " (vs.attach.map fun v => Value.pyRepr v.1) ++ "]"
decreasing_by
  have := List.sizeOf_lt_of_mem v.2
  simp_wf
  omega

/-- Python str() of a value, as interpolated by the f-strings of
get_filter_arg (`f'%{value}%'` and friends). -/
def Value.pyStr : Value → String
  | .str s => s
  | .list vs => "[" ++ String.intercalate ", " (vs.map Value.pyRepr) ++ "]"
  | v => Value.pyRepr v

/-- Dict models a Python dict with string keys, in insertion order. -/
abbrev Dict := List (String × Value)

/-- First value stored under a key, if any (Python `d[k]` / successful `d.get(k)`). -/
def lookupKey : Dict → String → Option Value
  | [], _ => none
  | (k, v) :: rest, key => if k = key then some v else lookupKey rest key

/-- Removes the entry under a key (Python dicts have unique keys, so removing
the first occurrence models `del` as performed by `dict.pop`). -/
def eraseKey : Dict → String → Dict
  | [], _ => []
  | (k, v) :: rest, key => if k = key then rest else (k, v) :: eraseKey rest key

/-- Python `d.get(k)`: a non-destructive lookup.  Returned together with the
dictionary left behind, to make the absence of mutation explicit. -/
def getKey (d : Dict) (key : String) : Option Value × Dict := (lookupKey d key, d)

/-- Python `d.pop(k)` with no default: `none` models the KeyError raised on a
missing key; otherwise the value and the dictionary with the entry removed. -/
def popKey (d : Dict) (key : String) : Option (Value × Dict) :=
  match lookupKey d key with
  | none => none
  | some v => some (v, eraseKey d key)

/-- Truthiness of an optional value (`args.get(key)` result):
a missing key behaves like a falsy value in `if not data_value`. -/
def truthyOpt : Option Value → Bool
  | some v => v.truthy
  | none => false

/-- Comparison operators of the `field op value` branches of get_filter_arg. -/
inductive CmpOp where
  | eq | ne | lt | le | gt | ge
  deriving DecidableEq, Repr

/-- Pred is the AST of SQLAlchemy predicate expressions, one constructor per
expression form the source builds: comparisons, `like`/`ilike` with a
pattern string, `startswith`/`endswith`, `in_`/`notin_`, `contains`,
`is_(None)`/`isnot(None)`, and the n-ary `or_`. -/
inductive Pred where
  | cmp (op : CmpOp) (field : String) (v : Value)
  | like (field : String) (pattern : String)
  | ilike (field : String) (pattern : String)
  | startsW (field : String) (v : Value)
  | endsW (field : String) (v : Value)
  | inList (field : String) (v : Value)
  | notInList (field : String) (v : Value)
  | containsE (field : String) (v : Value)
  | isNull (field : String)
  | isNotNull (field : String)
  | orP (ps : List Pred)
  deriving Repr

mutual
/-- Satisfaction of a predicate against an abstract valuation of the atomic
predicates (`atom` says which atomic predicates a given row satisfies);
`or_` is disjunction over its members, as in SQL. -/
def Pred.sat (atom : Pred → Bool) : Pred → Bool
  | .orP ps => Pred.satAny atom ps
  | p => atom p

/-- Disjunction of a list of predicates under `Pred.sat`. -/
def Pred.satAny (atom : Pred → Bool) : List Pred → Bool
  | [] => false
  | p :: ps => Pred.sat atom p || Pred.satAny atom ps
end

/-- Translation of filter.py get_filter_arg: dispatches on the filter_type
string through the elif chain of the source, producing the corresponding
SQLAlchemy expression; the final else raises ValueError, modelled by
`Except.error` carrying the source's message. -/
def get_filter_arg (field : String) (value : Value) (filter_type : String) :
    Except String Pred :=
  if filter_type = "eq" then .ok (.cmp .eq field value)
  else if filter_type = "ne" then .ok (.cmp .ne field value)
  else if filter_type = "lt" then .ok (.cmp .lt field value)
  else if filter_type = "le" then .ok (.cmp .le field value)
  else if filter_type = "gt" then .ok (.cmp .gt field value)
  else if filter_type = "ge" then .ok (.cmp .ge field value)
  else if filter_type = "like" then .ok (.like field ("%" ++ value.pyStr ++ "%"))
  else if filter_type = "ilike" then .ok (.ilike field ("%" ++ value.pyStr ++ "%"))
  else if filter_type = "starts" then .ok (.startsW field value)
  else if filter_type = "ends" then .ok (.endsW field value)
  else if filter_type = "istarts" then .ok (.ilike field (value.pyStr ++ "%"))
  else if filter_type = "iends" then .ok (.ilike field ("%" ++ value.pyStr))
  else if filter_type = "in" then .ok (.inList field value)
  else if filter_type = "not_in" then .ok (.notInList field value)
  else if filter_type = "contains" then .ok (.containsE field value)
  else if filter_type = "is_null" then .ok (.isNull field)
  else if filter_type = "is_not_null" then .ok (.isNotNull field)
  else .error ("Invalid filter type: " ++ filter_type)

/-- The filter types handled by the branches of get_filter_arg. -/
def supportedLookups : List String :=
  ["eq", "ne", "lt", "le", "gt", "ge", "like", "ilike", "starts", "ends",
   "istarts", "iends", "in", "not_in", "contains", "is_null", "is_not_null"]

/-- FieldConfig models the FieldConfigValueType TypedDict of filter.py:
a queryable field, an optional look_up string (the source defaults it with
`value.get('look_up', 'eq')`), and an optional wrapper callable that is
applied to the produced predicate. -/
structure FieldConfig where
  field : String
  look_up : Option String := none
  wrapper : Option (Pred → Pred) := none

/-- A value of the field_config mapping: the source distinguishes the two
shapes with `type(value) == dict` versus `type(value) == list`. -/
inductive CfgEntry where
  | single (c : FieldConfig)
  | alts (cs : List FieldConfig)

/-- Applies the optional wrapper callable, as in
`wrapper(filter_arg) if wrapper else filter_arg`. -/
def applyWrapper : Option (Pred → Pred) → Pred → Pred
  | some w, p => w p
  | none, p => p

/-- FQuery models the query returned by get_filtered_query: the model's base
query, the joined models in order, the filter arguments applied with
implicit AND, and the distinct-by column. -/
structure FQuery where
  model : String
  joins : List String
  filters : List Pred
  distinctId : String
  deriving Repr

/-- Translation of the inner loop of the list branch of get_filtered_query:
for each element of the list, re-check `args.get(key)` (the same key for
every alternative), skip falsy, build the predicate from `args[key]` and the
element's look_up (default 'eq'), and apply the element's own wrapper. -/
def buildOrArgs (args : Dict) (key : String) : List FieldConfig → Except String (List Pred)
  | [] => .ok []
  | c :: rest =>
    match lookupKey args key with
    | none => buildOrArgs args key rest
    | some v =>
      if v.truthy then do
        let p ← get_filter_arg c.field v (c.look_up.getD "eq")
        let ps ← buildOrArgs args key rest
        .ok (applyWrapper c.wrapper p :: ps)
      else buildOrArgs args key rest

/-- Translation of the main loop of get_filtered_query building
filter_arguments: the dict branch skips a key whose argument value is
absent or falsy and otherwise appends one (possibly wrapped) predicate;
the list branch builds the per-element predicates and appends
`or_(*or_filter_arguments)` unconditionally, even when no element
contributed a predicate. -/
def buildFilterArgs (args : Dict) : List (String × CfgEntry) → Except String (List Pred)
  | [] => .ok []
  | (key, CfgEntry.single c) :: rest =>
    match lookupKey args key with
    | none => buildFilterArgs args rest
    | some v =>
      if v.truthy then do
        let p ← get_filter_arg c.field v (c.look_up.getD "eq")
        let ps ← buildFilterArgs args rest
        .ok (applyWrapper c.wrapper p :: ps)
      else buildFilterArgs args rest
  | (key, CfgEntry.alts cs) :: rest => do
    let ors ← buildOrArgs args key cs
    let ps ← buildFilterArgs args rest
    .ok (Pred.orP ors :: ps)

/-- Translation of filter.py get_filtered_query: builds filter_arguments from
the configuration, starts from `model.query`, joins the join_models in
order, appends `model.deleted == False` when ignore_deleted is set, and
returns `query.filter(*filter_arguments).distinct(model.id)`. -/
def get_filtered_query (model : String) (args : Dict)
    (field_config : List (String × CfgEntry)) (join_models : List String := [])
    (ignore_deleted : Bool := false) : Except String FQuery := do
  let filter_arguments ← buildFilterArgs args field_config
  let filter_arguments := if ignore_deleted
    then filter_arguments ++ [Pred.cmp .eq (model ++ ".deleted") (.bool false)]
    else filter_arguments
  .ok { model := model, joins := join_models, filters := filter_arguments,
        distinctId := model ++ ".id" }

/-- PQuery models a SQLAlchemy query for the pagination helpers: the rows the
unwindowed query would produce, plus the LIMIT and OFFSET clauses.  Building
a PQuery value executes nothing; only `all` and `count` materialize rows. -/
structure PQuery (α : Type) where
  rows : List α
  limitC : Option Int := none
  offsetC : Option Int := none
  deriving Repr

/-- Query.limit(n): records the LIMIT clause, no execution. -/
def PQuery.limit {α : Type} (q : PQuery α) (n : Int) : PQuery α :=
  { q with limitC := some n }

/-- Query.offset(n): records the OFFSET clause, no execution. -/
def PQuery.offset {α : Type} (q : PQuery α) (n : Int) : PQuery α :=
  { q with offsetC := some n }

/-- Query.all(): materializes the rows, honouring OFFSET then LIMIT as SQL
does (clauses are declarative; the call order of limit/offset is irrelevant). -/
def PQuery.all {α : Type} (q : PQuery α) : List α :=
  let dropped := q.rows.drop (q.offsetC.getD 0).toNat
  match q.limitC with
  | none => dropped
  | some l => dropped.take l.toNat

/-- Query.count(): the number of rows the query produces. -/
def PQuery.count {α : Type} (q : PQuery α) : Int :=
  (PQuery.all q).length

/-- Translation of pagination.py get_paginated_queryset:
`queryset.limit(size).offset((page - 1) * size)`. -/
def get_paginated_queryset {α : Type} (queryset : PQuery α) (page size : Int) : PQuery α :=
  PQuery.offset (PQuery.limit queryset size) ((page - 1) * size)

/-- Mathematical floor of the exact quotient a / b for nonzero b, built from
Euclidean division (for a negative divisor, both operands are negated so the
divisor handed to ediv is positive). -/
def floorDiv (a b : Int) : Int :=
  if 0 ≤ b then Int.ediv a b else Int.ediv (-a) (-b)

/-- Mathematical ceiling of the exact quotient a / b for nonzero b, via
negating the floor of the negated quotient; this models Python's
`math.ceil(total_count / size)`. -/
def ceilDiv (a b : Int) : Int := -(floorDiv (-a) b)

/-- PageResult models the structure handed to paginated_schema.dump by
get_paginated_data (the serialization collaborator itself is external). -/
structure PageResult (α : Type) where
  items : List α
  total_count : Int
  total_page : Int
  current_page : Int
  has_next : Bool
  has_prev : Bool
  deriving Repr

/-- Translation of pagination.py get_paginated_data: reads page and size with
the non-destructive `page_args.get(...) or default` (falsy values default to
1 and 10), windows the query with get_paginated_queryset, counts the
unwindowed query, computes total_page/has_next/has_prev, and assembles the
page structure.  `none` models a TypeError when a truthy page/size value is
not usable as an int.  The dictionary the call leaves behind is returned
alongside the result to make the frame effect explicit. -/
def get_paginated_data {α : Type} (query : PQuery α) (page_args : Dict) :
    Option (PageResult α × Dict) :=
  let (pOpt, d1) := getKey page_args "page"
  let pageV := match pOpt with
    | some v => if v.truthy then v else Value.int 1
    | none => Value.int 1
  let (sOpt, d2) := getKey d1 "size"
  let sizeV := match sOpt with
    | some v => if v.truthy then v else Value.int 10
    | none => Value.int 10
  match pageV.asInt, sizeV.asInt with
  | some page, some size =>
    let paginated_queryset := get_paginated_queryset query page size
    let total_count := PQuery.count query
    let total_page := ceilDiv total_count size
    let has_next := decide (page < total_page)
    let has_prev := decide (page > 1)
    some ({ items := paginated_queryset.all, total_count := total_count,
            total_page := total_page, current_page := page,
            has_next := has_next, has_prev := has_prev }, d2)
  | _, _ => none

/-- Translation of pagination.py get_page_args:
`page = args.pop('page') or 1; size = args.pop('size') or 10;
return {'page': page, 'size': size}` — `pop` with no default raises
KeyError on a missing key (modelled by `none`) and removes the entry.
The result dict and the mutated source dict are both returned. -/
def get_page_args (args : Dict) : Option (Dict × Dict) :=
  match popKey args "page" with
  | none => none
  | some (pv, args1) =>
    match popKey args1 "size" with
    | none => none
    | some (sv, args2) =>
      some ([("page", if pv.truthy then pv else Value.int 1),
             ("size", if sv.truthy then sv else Value.int 10)], args2)

/-- C6: get_filter_arg produces the documented pattern for each string
lookup: like and ilike wrap the value as %value% (case-sensitive resp.
case-insensitive substring match), istarts produces a case-insensitive match
on value% and iends on %value, and is_null / is_not_null return a nullity
predicate independent of the value argument. -/
theorem get_filter_arg_string_patterns : ∀ (f : String) (v w : Value),
    get_filter_arg f v "like" = .ok (.like f ("%" ++ v.pyStr ++ "%")) ∧
    get_filter_arg f v "ilike" = .ok (.ilike f ("%" ++ v.pyStr ++ "%")) ∧
    get_filter_arg f v "istarts" = .ok (.ilike f (v.pyStr ++ "%")) ∧
    get_filter_arg f v "iends" = .ok (.ilike f ("%" ++ v.pyStr)) ∧
    get_filter_arg f v "is_null" = .ok (.isNull f) ∧
    get_filter_arg f v "is_not_null" = .ok (.isNotNull f) ∧
    get_filter_arg f v "is_null" = get_filter_arg f w "is_null" ∧
    get_filter_arg f v "is_not_null" = get_filter_arg f w "is_not_null" :=
  fun _ _ _ => ⟨rfl, rfl, rfl, rfl, rfl, rfl, rfl, rfl⟩

/-- C4: get_filter_arg raises the ValueError exactly when the lookup is
outside the enumeration of seventeen supported filter types, and returns a
predicate without error for every lookup inside it; there is no silent
default branch. -/
theorem get_filter_arg_supported_iff : ∀ (f : String) (v : Value) (lk : String),
    (lk ∉ supportedLookups →
      get_filter_arg f v lk = .error ("Invalid filter type: " ++ lk)) ∧
    (lk ∈ supportedLookups → ∃ p, get_filter_arg f v lk = .ok p) := by
  intro f v lk
  constructor
  · intro hm
    obtain ⟨n1, n2, n3, n4, n5, n6, n7, n8, n9, n10, n11, n12, n13, n14, n15, n16, n17⟩ :
        lk ≠ "eq" ∧ lk ≠ "ne" ∧ lk ≠ "lt" ∧ lk ≠ "le" ∧ lk ≠ "gt" ∧ lk ≠ "ge" ∧
        lk ≠ "like" ∧ lk ≠ "ilike" ∧ lk ≠ "starts" ∧ lk ≠ "ends" ∧ lk ≠ "istarts" ∧
        lk ≠ "iends" ∧ lk ≠ "in" ∧ lk ≠ "not_in" ∧ lk ≠ "contains" ∧ lk ≠ "is_null" ∧
        lk ≠ "is_not_null" := by
      simpa [supportedLookups, not_or] using hm
    unfold get_filter_arg
    rw [if_neg n1, if_neg n2, if_neg n3, if_neg n4, if_neg n5, if_neg n6, if_neg n7,
        if_neg n8, if_neg n9, if_neg n10, if_neg n11, if_neg n12, if_neg n13, if_neg n14,
        if_neg n15, if_neg n16, if_neg n17]
  · intro hm
    simp only [supportedLookups, List.mem_cons, List.not_mem_nil, or_false] at hm
    rcases hm with rfl | rfl | rfl | rfl | rfl | rfl | rfl | rfl | rfl | rfl | rfl | rfl |
      rfl | rfl | rfl | rfl | rfl <;> exact ⟨_, rfl⟩

/-- Witness for C4: a lookup outside the enumeration fails with the
ValueError message, and one inside (contains) succeeds. -/
theorem get_filter_arg_supported_iff_witness :
    get_filter_arg "name" (.str "x") "regex" = .error "Invalid filter type: regex" ∧
    ∃ p, get_filter_arg "name" (.str "x") "contains" = .ok p := by
  constructor
  · exact (get_filter_arg_supported_iff "name" (.str "x") "regex").1 (by decide)
  · exact (get_filter_arg_supported_iff "name" (.str "x") "contains").2 (by decide)

/-- C8: for page ≥ 1 and size ≥ 1, get_paginated_queryset is exactly the
base query composed with limit(size) and offset((page - 1) * size); the
composition touches no rows (rows component unchanged, nothing
materialized), and the window it denotes is drop offset / take size. -/
theorem get_paginated_queryset_window : ∀ {α : Type} (q : PQuery α) (p s : Int),
    1 ≤ p → 1 ≤ s →
    get_paginated_queryset q p s = PQuery.offset (PQuery.limit q s) ((p - 1) * s) ∧
    (get_paginated_queryset q p s).rows = q.rows ∧
    (get_paginated_queryset q p s).all =
      (q.rows.drop ((p - 1) * s).toNat).take s.toNat :=
  fun _ _ _ _ _ => ⟨rfl, rfl, rfl⟩

/-- Witness for C8: page 2 of size 1 over three rows is the second row. -/
theorem get_paginated_queryset_window_witness :
    (get_paginated_queryset (⟨[10, 20, 30], none, none⟩ : PQuery Nat) 2 1).all = [20] := by
  have h := (get_paginated_queryset_window (⟨[10, 20, 30], none, none⟩ : PQuery Nat)
    2 1 (by decide) (by decide)).2.2
  simpa using h

/-- C2 (amended): get_paginated_data with size == 0 does not fail; the falsy
size is replaced by the default 10, so the returned page equals the one
computed for size 10. -/
theorem size_zero_defaults_to_ten : ∀ {α : Type} (q : PQuery α) (p : Int),
    (get_paginated_data q [("page", Value.int p), ("size", Value.int 0)]).map Prod.fst =
    (get_paginated_data q [("page", Value.int p), ("size", Value.int 10)]).map Prod.fst := by
  intro α q p
  by_cases hp : p = 0 <;>
    simp [get_paginated_data, getKey, lookupKey, Value.truthy, Value.asInt, hp]

/-- Counterexample for C2: with 25 rows and size 0, get_paginated_data
raises nothing and silently returns the page computed with the default
size 10 (ten items, total_page 3), contradicting the claimed
InvalidPageSize failure. -/
theorem size_zero_returns_default_page_cex :
    get_paginated_data (⟨List.range 25, none, none⟩ : PQuery Nat)
      [("page", Value.int 1), ("size", Value.int 0)] =
    some ({ items := List.range 10, total_count := 25, total_page := 3,
            current_page := 1, has_next := true, has_prev := false },
          [("page", Value.int 1), ("size", Value.int 0)]) := rfl

/-- C10: get_paginated_data never mutates its page_args mapping: whatever the
outcome, the dictionary it leaves behind is the one it received, and on an
empty mapping the falsy-to-default rule yields current_page 1 and a
size-10 window, with the mapping still empty. -/
theorem get_paginated_data_no_mutation :
    (∀ {α : Type} (q : PQuery α) (args : Dict),
      (get_paginated_data q args).map Prod.snd =
      (get_paginated_data q args).map fun _ => args) ∧
    (∀ {α : Type} (q : PQuery α),
      (get_paginated_data q []).map (fun x => (x.1.items, x.1.current_page, x.2)) =
      some (q.rows.take 10, 1, ([] : Dict))) := by
  constructor
  · intro α q args
    rcases h : get_paginated_data q args with _ | x
    · rfl
    · have hsnd : x.2 = args := by
        simp only [get_paginated_data, getKey] at h
        split at h
        · injection h with h'
          exact congrArg Prod.snd h'.symm
        · exact Option.noConfusion h
      simp [hsnd]
  · intro α q
    simp [get_paginated_data, getKey, lookupKey, Value.asInt, get_paginated_queryset,
      PQuery.all, PQuery.limit, PQuery.offset, PQuery.count]

/-- Counterexample for C3: get_page_args on the empty mapping raises KeyError
(pop with no default), instead of returning page 1 and size 10. -/
theorem get_page_args_empty_cex : get_page_args [] = none := rfl

/-- C3 (amended): get_page_args defaults a present-but-falsy page to 1 and a
present-but-falsy size to 10, but a missing page or size key raises KeyError
instead of defaulting; in particular the empty mapping is an error. -/
theorem get_page_args_defaults :
    (∀ args : Dict, lookupKey args "page" = none → get_page_args args = none) ∧
    (∀ (args a1 : Dict) (pv : Value), popKey args "page" = some (pv, a1) →
      lookupKey a1 "size" = none → get_page_args args = none) ∧
    (∀ (args a1 a2 : Dict) (pv sv : Value),
      popKey args "page" = some (pv, a1) → popKey a1 "size" = some (sv, a2) →
      get_page_args args =
        some ([("page", if pv.truthy then pv else Value.int 1),
               ("size", if sv.truthy then sv else Value.int 10)], a2)) := by
  refine ⟨?_, ?_, ?_⟩
  · intro args h
    simp [get_page_args, popKey, h]
  · intro args a1 pv h1 h2
    simp only [get_page_args, h1]
    simp [popKey, h2]
  · intro args a1 a2 pv sv h1 h2
    simp [get_page_args, h1, h2]

/-- Witness for C3: a mapping missing the page key errors, and falsy page 0
and size "" default to 1 and 10. -/
theorem get_page_args_defaults_witness :
    get_page_args [("size", Value.int 5)] = none ∧
    get_page_args [("page", Value.int 0), ("size", Value.str "")] =
      some ([("page", Value.int 1), ("size", Value.int 10)], []) := by
  constructor
  · exact get_page_args_defaults.1 [("size", Value.int 5)] rfl
  · exact get_page_args_defaults.2.2 [("page", Value.int 0), ("size", Value.str "")]
      [("size", Value.str "")] [] (Value.int 0) (Value.str "") rfl rfl

/-- Lookup of a key is unchanged by erasing a different key. -/
theorem lookupKey_eraseKey_ne (d : Dict) (k k' : String) (h : k ≠ k') :
    lookupKey (eraseKey d k') k = lookupKey d k := by
  induction d with
  | nil => rfl
  | cons kv rest ih =>
    obtain ⟨k0, v0⟩ := kv
    by_cases hk : k0 = k'
    · subst hk
      have hne : ¬k0 = k := fun hh => h hh.symm
      simp [eraseKey, lookupKey, hne]
    · simp only [eraseKey, if_neg hk, lookupKey]
      by_cases hk2 : k0 = k <;> simp [hk2, ih]

/-- Lookup of a key is absent from the key-erased dictionary when the
dictionary's keys were unique (as Python dict keys are). -/
theorem lookupKey_eq_none_of_not_mem (d : Dict) (k : String)
    (h : k ∉ d.map Prod.fst) : lookupKey d k = none := by
  induction d with
  | nil => rfl
  | cons kv rest ih =>
    obtain ⟨k0, v0⟩ := kv
    simp only [List.map_cons, List.mem_cons] at h
    push_neg at h
    have hne : ¬k0 = k := fun hh => h.1 hh.symm
    simp [lookupKey, hne, ih h.2]

/-- The keys of the key-erased dictionary form a sublist of the keys. -/
theorem eraseKey_keys_sublist (d : Dict) (k : String) :
    ((eraseKey d k).map Prod.fst).Sublist (d.map Prod.fst) := by
  induction d with
  | nil => simp [eraseKey]
  | cons kv rest ih =>
    obtain ⟨k0, v0⟩ := kv
    by_cases hk : k0 = k
    · simp [eraseKey, hk]
    · simpa [eraseKey, hk] using ih.cons₂ k0

/-- Erasing a key removes its lookup, given unique keys. -/
theorem lookupKey_eraseKey_self (d : Dict) (k : String)
    (h : (d.map Prod.fst).Nodup) : lookupKey (eraseKey d k) k = none := by
  induction d with
  | nil => rfl
  | cons kv rest ih =>
    obtain ⟨k0, v0⟩ := kv
    simp only [List.map_cons, List.nodup_cons] at h
    by_cases hk : k0 = k
    · subst hk
      simp only [eraseKey, if_pos rfl]
      exact lookupKey_eq_none_of_not_mem rest k0 h.1
    · simp [eraseKey, hk, lookupKey, ih h.2]

/-- Inversion for popKey: success reveals the looked-up value and that the
remaining dictionary is the key-erased one. -/
theorem popKey_some (d : Dict) (k : String) (v : Value) (d' : Dict)
    (h : popKey d k = some (v, d')) : lookupKey d k = some v ∧ d' = eraseKey d k := by
  unfold popKey at h
  split at h
  · exact Option.noConfusion h
  · injection h with h'
    injection h' with hv hd
    subst hv
    subst hd
    constructor
    · assumption
    · rfl

/-- C9: get_page_args mutates the incoming mapping by removing exactly the
page and size entries (for unique keys, as in a Python dict): both keys are
gone from the residual mapping and every other key still looks up to its
original value. -/
theorem get_page_args_frame : ∀ (args res rem : Dict),
    (args.map Prod.fst).Nodup → get_page_args args = some (res, rem) →
    rem = eraseKey (eraseKey args "page") "size" ∧
    lookupKey rem "page" = none ∧ lookupKey rem "size" = none ∧
    ∀ k, k ≠ "page" → k ≠ "size" → lookupKey rem k = lookupKey args k := by
  intro args res rem hnd h
  unfold get_page_args at h
  split at h
  · exact Option.noConfusion h
  · rename_i pv a1 h1
    split at h
    · exact Option.noConfusion h
    · rename_i sv a2 h2
      injection h with h'
      obtain ⟨hl1, he1⟩ := popKey_some args "page" pv a1 h1
      have hrem : rem = a2 := (congrArg Prod.snd h').symm
      obtain ⟨hl2, he2⟩ := popKey_some a1 "size" sv a2 h2
      subst he1
      subst he2
      subst hrem
      have hnd1 : ((eraseKey args "page").map Prod.fst).Nodup :=
        hnd.sublist (eraseKey_keys_sublist args "page")
      refine ⟨rfl, ?_, ?_, ?_⟩
      · exact (lookupKey_eraseKey_ne (eraseKey args "page") "page" "size"
          (by decide)).trans (lookupKey_eraseKey_self args "page" hnd)
      · exact lookupKey_eraseKey_self (eraseKey args "page") "size" hnd1
      · intro k hkp hks
        exact (lookupKey_eraseKey_ne (eraseKey args "page") k "size" hks).trans
          (lookupKey_eraseKey_ne args k "page" hkp)

/-- Witness for C9: on the mapping of the spec example the call returns page 2
and size 20, leaves exactly the q entry behind, and q still looks up to "x". -/
theorem get_page_args_frame_witness :
    get_page_args [("page", Value.int 2), ("size", Value.int 20), ("q", Value.str "x")] =
      some ([("page", Value.int 2), ("size", Value.int 20)], [("q", Value.str "x")]) ∧
    lookupKey [("q", Value.str "x")] "q" =
      lookupKey [("page", Value.int 2), ("size", Value.int 20), ("q", Value.str "x")] "q" := by
  refine ⟨rfl, ?_⟩
  exact (get_page_args_frame
    [("page", Value.int 2), ("size", Value.int 20), ("q", Value.str "x")]
    [("page", Value.int 2), ("size", Value.int 20)] [("q", Value.str "x")]
    (by decide) rfl).2.2.2 "q" (by decide) (by decide)

/-- With an absent-or-falsy argument under the key, every element of an
OR-group is skipped, yielding the empty list of OR members. -/
theorem buildOrArgs_falsy (args : Dict) (k : String)
    (hf : truthyOpt (lookupKey args k) = false) :
    ∀ cs : List FieldConfig, buildOrArgs args k cs = .ok [] := by
  intro cs
  induction cs with
  | nil => rfl
  | cons c rest ih =>
    cases hl : lookupKey args k with
    | none => simp [buildOrArgs, hl, ih]
    | some v =>
      have hv : v.truthy = false := by simpa [truthyOpt, hl] using hf
      simp [buildOrArgs, hl, hv, ih]

/-- A configuration of single (dict-valued) entries whose argument values are
all absent or falsy contributes no filter argument at all. -/
theorem buildFilterArgs_all_single_falsy (args : Dict) :
    ∀ cfg : List (String × CfgEntry),
    (∀ kc ∈ cfg, ∃ c, kc.2 = CfgEntry.single c) →
    (∀ kc ∈ cfg, truthyOpt (lookupKey args kc.1) = false) →
    buildFilterArgs args cfg = .ok [] := by
  intro cfg
  induction cfg with
  | nil => intro _ _; rfl
  | cons kc rest ih =>
    intro hsingle hfalsy
    obtain ⟨key, entry⟩ := kc
    obtain ⟨c, hc⟩ := hsingle (key, entry) (List.mem_cons_self _ _)
    simp only at hc
    subst hc
    have hf := hfalsy (key, CfgEntry.single c) (List.mem_cons_self _ _)
    simp only at hf
    have ih2 := ih (fun kc hkc => hsingle kc (List.mem_cons_of_mem _ hkc))
      (fun kc hkc => hfalsy kc (List.mem_cons_of_mem _ hkc))
    cases hl : lookupKey args key with
    | none => simp [buildFilterArgs, hl, ih2]
    | some v =>
      have hv : v.truthy = false := by simpa [truthyOpt, hl] using hf
      simp [buildFilterArgs, hl, hv, ih2]

/-- C1 (amended): with every configured key's argument value absent or falsy,
a configuration of single (dict-valued) entries emits no predicate and the
result equals the unfiltered base query (the empty-configuration query,
joins identical, ignore_deleted off); a list-valued (OR-group) configuration
with no present argument values, however, still appends one entry for its
key: the OR of zero predicates. -/
theorem absent_arguments_no_predicates :
    (∀ (m : String) (args : Dict) (cfg : List (String × CfgEntry)) (joins : List String),
      (∀ kc ∈ cfg, ∃ c, kc.2 = CfgEntry.single c) →
      (∀ kc ∈ cfg, truthyOpt (lookupKey args kc.1) = false) →
      get_filtered_query m args cfg joins false =
        get_filtered_query m args [] joins false) ∧
    (∀ (m k : String) (args : Dict) (cs : List FieldConfig) (joins : List String),
      truthyOpt (lookupKey args k) = false →
      get_filtered_query m args [(k, CfgEntry.alts cs)] joins false =
        .ok { model := m, joins := joins, filters := [Pred.orP []],
              distinctId := m ++ ".id" }) := by
  constructor
  · intro m args cfg joins hsingle hfalsy
    simp [get_filtered_query, buildFilterArgs,
      buildFilterArgs_all_single_falsy args cfg hsingle hfalsy]
  · intro m k args cs joins hf
    simp only [get_filtered_query, buildFilterArgs, buildOrArgs_falsy args k hf cs]
    rfl

/-- Witness for C1 (amended): a two-key single-entry configuration with no
matching argument values yields the same query as the empty configuration,
and an OR-group with absent values yields the single empty-OR entry. -/
theorem absent_arguments_no_predicates_witness :
    get_filtered_query "M" [("other", Value.str "y")]
      [("k", CfgEntry.single ⟨"f", none, none⟩),
       ("j", CfgEntry.single ⟨"g", some "like", none⟩)] [] false =
      get_filtered_query "M" [("other", Value.str "y")] [] [] false ∧
    get_filtered_query "M" []
      [("k", CfgEntry.alts [⟨"f", none, none⟩, ⟨"g", none, none⟩])] [] false =
      .ok { model := "M", joins := [], filters := [Pred.orP []], distinctId := "M.id" } := by
  constructor
  · refine absent_arguments_no_predicates.1 "M" [("other", Value.str "y")] _ [] ?_ ?_
    · intro kc hkc
      simp only [List.mem_cons, List.not_mem_nil, or_false] at hkc
      rcases hkc with rfl | rfl
      · exact ⟨_, rfl⟩
      · exact ⟨_, rfl⟩
    · intro kc hkc
      simp only [List.mem_cons, List.not_mem_nil, or_false] at hkc
      rcases hkc with rfl | rfl
      · rfl
      · rfl
  · exact absent_arguments_no_predicates.2 "M" "k" [] [⟨"f", none, none⟩, ⟨"g", none, none⟩]
      [] rfl

/-- Counterexample for C1: for a list-valued configuration whose key has no
present argument value, get_filtered_query does append a predicate entry for
the key, namely the OR of zero predicates — the filter list is not empty. -/
theorem orGroup_empty_appended_cex :
    get_filtered_query "M" [] [("k", CfgEntry.alts [⟨"f", none, none⟩])] [] false =
      .ok { model := "M", joins := [], filters := [Pred.orP []], distinctId := "M.id" } ∧
    [Pred.orP []] ≠ ([] : List Pred) :=
  ⟨rfl, by simp⟩

/-- C7: for a list-valued configuration under key k with two alternatives and
a present (truthy) argument value, get_filtered_query builds one predicate
per alternative from the same args[k] value, applies each alternative's own
wrapper, and appends their OR as a single entry of the top-level AND set;
that entry is satisfied exactly when either alternative is. -/
theorem orGroup_or_of_alternatives : ∀ (m k : String) (args : Dict)
    (c1 c2 : FieldConfig) (v : Value) (p1 p2 : Pred),
    lookupKey args k = some v → v.truthy = true →
    get_filter_arg c1.field v (c1.look_up.getD "eq") = .ok p1 →
    get_filter_arg c2.field v (c2.look_up.getD "eq") = .ok p2 →
    get_filtered_query m args [(k, CfgEntry.alts [c1, c2])] [] false =
      .ok { model := m, joins := [],
            filters := [Pred.orP [applyWrapper c1.wrapper p1, applyWrapper c2.wrapper p2]],
            distinctId := m ++ ".id" } ∧
    ∀ atom : Pred → Bool,
      Pred.sat atom (Pred.orP [applyWrapper c1.wrapper p1, applyWrapper c2.wrapper p2]) =
      (Pred.sat atom (applyWrapper c1.wrapper p1) ||
       Pred.sat atom (applyWrapper c2.wrapper p2)) := by
  intro m k args c1 c2 v p1 p2 hl hv h1 h2
  constructor
  · simp only [get_filtered_query, buildFilterArgs, buildOrArgs, hl, hv, if_true, h1, h2]
    rfl
  · intro atom
    simp [Pred.sat, Pred.satAny]

/-- Witness for C7: two alternatives for key k against the value "x" produce
the OR of an eq predicate on f1 and a wrapped like predicate on f2. -/
theorem orGroup_or_of_alternatives_witness :
    get_filtered_query "M" [("k", Value.str "x")]
      [("k", CfgEntry.alts [⟨"f1", none, none⟩,
                            ⟨"f2", some "like", some (fun p => Pred.orP [p])⟩])] [] false =
      .ok { model := "M", joins := [],
            filters := [Pred.orP [Pred.cmp .eq "f1" (Value.str "x"),
                                  Pred.orP [Pred.like "f2" "%x%"]]],
            distinctId := "M.id" } :=
  (orGroup_or_of_alternatives "M" "k" [("k", Value.str "x")]
    ⟨"f1", none, none⟩ ⟨"f2", some "like", some (fun p => Pred.orP [p])⟩
    (Value.str "x") (Pred.cmp .eq "f1" (Value.str "x")) (Pred.like "f2" "%x%")
    rfl rfl rfl rfl).1

/-- For a positive size, ceilDiv sits in the defining window of the ceiling:
the count is at most total_page * size and strictly above (total_page - 1) * size. -/
theorem ceilDiv_bounds (a s : Int) (hs : 1 ≤ s) :
    a ≤ ceilDiv a s * s ∧ (ceilDiv a s - 1) * s < a := by
  have h0 : (0 : Int) < s := by omega
  have hne : s ≠ 0 := by omega
  have hdef : ceilDiv a s = -(Int.ediv (-a) s) := by
    simp [ceilDiv, floorDiv, if_pos (le_of_lt h0)]
  have heuclid : s * Int.ediv (-a) s + Int.emod (-a) s = -a := Int.ediv_add_emod (-a) s
  have hr0 : 0 ≤ Int.emod (-a) s := Int.emod_nonneg (-a) hne
  have hrlt : Int.emod (-a) s < s := Int.emod_lt_of_pos (-a) h0
  rw [hdef]
  constructor
  · linarith [heuclid, hr0]
  · linarith [heuclid, hrlt]

/-- For a positive size, ceilDiv agrees with the rational ceiling of the
exact quotient. -/
theorem ceilDiv_eq_rat_ceil (a s : Int) (hs : 1 ≤ s) :
    ceilDiv a s = ⌈(a : ℚ) / (s : ℚ)⌉ := by
  have hb := ceilDiv_bounds a s hs
  have hs0 : (0 : ℚ) < (s : ℚ) := by exact_mod_cast (by omega : (0 : Int) < s)
  symm
  rw [Int.ceil_eq_iff]
  constructor
  · rw [lt_div_iff₀ hs0]
    exact_mod_cast hb.2
  · rw [div_le_iff₀ hs0]
    exact_mod_cast hb.1

/-- C5: for page ≥ 1 and size ≥ 1, get_paginated_data computes
total_page = ceil(total_count / size) (its value agrees with the rational
ceiling), has_next = (page < total_page) and has_prev = (page > 1); and when
total_count = 0, total_page = 0 and both flags are false for page = 1. -/
theorem get_paginated_data_page_math : ∀ {α : Type} (q : PQuery α) (p s : Int),
    1 ≤ p → 1 ≤ s →
    get_paginated_data q [("page", Value.int p), ("size", Value.int s)] =
      some ({ items := (q.rows.drop ((p - 1) * s).toNat).take s.toNat,
              total_count := PQuery.count q,
              total_page := ceilDiv (PQuery.count q) s,
              current_page := p,
              has_next := decide (p < ceilDiv (PQuery.count q) s),
              has_prev := decide (1 < p) },
            [("page", Value.int p), ("size", Value.int s)]) ∧
    ceilDiv (PQuery.count q) s = ⌈(PQuery.count q : ℚ) / (s : ℚ)⌉ ∧
    (PQuery.count q = 0 →
      ceilDiv (PQuery.count q) s = 0 ∧
      (p = 1 → decide (p < ceilDiv (PQuery.count q) s) = false ∧
        decide (1 < p) = false)) := by
  intro α q p s hp hs
  have hpne : p ≠ 0 := by omega
  have hsne : s ≠ 0 := by omega
  refine ⟨?_, ceilDiv_eq_rat_ceil (PQuery.count q) s hs, ?_⟩
  · simp [get_paginated_data, getKey, lookupKey, Value.truthy, Value.asInt,
      get_paginated_queryset, PQuery.all, PQuery.limit, PQuery.offset, hpne, hsne]
  · intro h0
    rw [h0]
    have hz : ceilDiv 0 s = 0 := by
      simp only [ceilDiv, floorDiv, neg_zero]
      rw [if_pos (by omega : (0 : Int) ≤ s)]
      show -((0 : Int) / s) = 0
      simp
    refine ⟨hz, ?_⟩
    intro hp1
    subst hp1
    rw [hz]
    exact ⟨by decide, by decide⟩

/-- Witness for C5: three rows with size 2 give two pages. -/
theorem get_paginated_data_page_math_witness :
    (get_paginated_data (⟨[0, 1, 2], none, none⟩ : PQuery Nat)
      [("page", Value.int 2), ("size", Value.int 2)]).map (fun x => x.1.total_page) =
      some 2 := by
  rw [(get_paginated_data_page_math (⟨[0, 1, 2], none, none⟩ : PQuery Nat) 2 2
    (by decide) (by decide)).1]
  rfl

end SqlalchemyHelpers
